import Mathlib

/-!
Verification of the generic in-memory model/session engine
(`flask_appbuilder/models/generic/__init__.py`).

The Python code is shallowly embedded: Python values are `PyVal` (the engine
only ever stores ints and strings), exceptions are `Except PyError`, the
class objects produced by `MetaGenericModel` are `ModelClass` values, record
instances are `Record` values, and `GenericSession` becomes explicit state
passing over `SessionState`.  Python 2 semantics are followed (the source is
Python 2: `dict.keys()` indexing, old-style `super`, `__metaclass__`).
-/

/-- The runtime types the engine manipulates (`type(value)`). -/
inductive PyType where
  | int
  | str
deriving DecidableEq, Repr

/-- A Python value as stored in a record field or passed as a filter literal. -/
inductive PyVal where
  | int (n : Int)
  | str (s : String)
deriving DecidableEq, Repr

/-- Python exceptions that the embedded code can raise. -/
inductive PyError where
  | typeError
  | valueError
  | attributeError
  | keyError
  | pkMissing (model_name : String)
deriving DecidableEq, Repr

deriving instance DecidableEq for Except

/-- `type(v)` for a stored value. -/
def PyVal.pyType : PyVal → PyType
  | .int _ => .int
  | .str _ => .str

/-- Python `str(v)` for the values of our model. -/
def pyStr : PyVal → String
  | .int n => toString n
  | .str s => s

/-- Drop leading whitespace characters (used to model `str.strip`). -/
def dropWsChars : List Char → List Char
  | [] => []
  | c :: cs => if c.isWhitespace then dropWsChars cs else c :: cs

/-- Strip whitespace from both ends, as Python `int(...)` does on its input. -/
def stripChars (l : List Char) : List Char :=
  dropWsChars (dropWsChars l.reverse).reverse

/-- Accumulate a decimal number from digit characters; `none` on a non-digit. -/
def parseDigitsAux : List Char → Nat → Option Nat
  | [], acc => some acc
  | c :: cs, acc =>
      if c.isDigit then parseDigitsAux cs (acc * 10 + (c.toNat - 48)) else none

/-- A nonempty all-digit run, as required by Python `int` literals. -/
def parseDigits : List Char → Option Nat
  | [] => none
  | l => parseDigitsAux l 0

/-- Python `int(s)`: strip whitespace, optional sign, then decimal digits;
`none` models the `ValueError` for an invalid literal (e.g. `"30.5"`). -/
def parseIntPy (s : String) : Option Int :=
  match stripChars s.data with
  | '-' :: rest => (parseDigits rest).map (fun n => -(n : Int))
  | '+' :: rest => (parseDigits rest).map (fun n => (n : Int))
  | rest => (parseDigits rest).map (fun n => (n : Int))

/-- Python `type(target)(v)`: coerce `v` with the constructor of type `t`.
`str(...)` always succeeds; `int(...)` of a non-numeric string raises
`ValueError`. -/
def coerceTo : PyType → PyVal → Except PyError PyVal
  | .str, v => .ok (.str (pyStr v))
  | .int, .int n => .ok (.int n)
  | .int, .str s =>
      match parseIntPy s with
      | some n => .ok (.int n)
      | none => .error .valueError

/-- Boolean test that `n` is a lead segment of `l`. -/
def isPrefixChars : List Char → List Char → Bool
  | [], _ => true
  | _ :: _, [] => false
  | a :: as, b :: bs => a = b && isPrefixChars as bs

/-- Boolean test that `n` occurs contiguously somewhere in `l`. -/
def containsChars (n : List Char) : List Char → Bool
  | [] => isPrefixChars n []
  | c :: cs => isPrefixChars n (c :: cs) || containsChars n cs

/-- Python `n in h` for two strings: substring containment. -/
def pyInStr (n h : String) : Bool :=
  containsChars n.data h.data

/-- Python `value in container` restricted to the values of our model.
A non-string container (an int) is not iterable: `TypeError`; a non-string
needle in a string also raises `TypeError` (`in <string>` requires a string
operand). -/
def pyIn (needle haystack : PyVal) : Except PyError Bool :=
  match haystack, needle with
  | .str h, .str n => .ok (pyInStr n h)
  | .str _, .int _ => .error .typeError
  | .int _, _ => .error .typeError

/-- Lexicographic `≤` on character lists (Python 2 string comparison,
codepoint-wise). -/
def lexLeChars : List Char → List Char → Bool
  | [], _ => true
  | _ :: _, [] => false
  | a :: as, b :: bs => if a < b then true else if b < a then false else lexLeChars as bs

/-- Python 2 `≤` on our values: numeric on ints, lexicographic on strings, and
any int sorts before any str (Python 2 orders mixed types by type name). -/
def pyLe : PyVal → PyVal → Bool
  | .int a, .int b => a ≤ b
  | .str a, .str b => lexLeChars a.data b.data
  | .int _, .str _ => true
  | .str _, .int _ => false

/-- `GenericColumn(col_type, primary_key, unique, nullable)`. -/
structure GenericColumn where
  col_type : PyType
  primary_key : Bool
  unique : Bool
  nullable : Bool
deriving DecidableEq, Repr

/-- The class object built by `MetaGenericModel.__new__` for a record type:
`_name`, the ordered `_col_defs` mapping (= `properties`; `columns` is its key
list), and the `pk` class attribute.  In Python this object is shared by every
instance of the type; functions that mutate it here return the updated value
explicitly. -/
structure ModelClass where
  name : String
  col_defs : List (String × GenericColumn)
  pk : Option String
deriving DecidableEq, Repr

/-- `MetaGenericModel.__new__`: collect the declared columns in declaration
order and set `pk` to the first column flagged `primary_key` (it stays `None`
when no column is flagged). -/
def mkModelClass (name : String) (cols : List (String × GenericColumn)) : ModelClass :=
  { name := name
    col_defs := cols
    pk := (cols.find? (fun kv => kv.2.primary_key)).map Prod.fst }

/-- A record instance: the class object it was built from and its instance
dictionary.  Instance attribute lookup only consults `attrs`; the Python
fallback to class attributes (which would yield the `GenericColumn`
descriptor itself for a never-assigned field) is not modelled — every claim
concerns fields that hold a stored value. -/
structure Record where
  cls : ModelClass
  attrs : List (String × PyVal)
deriving DecidableEq, Repr

/-- `getattr(item, name)`: the stored value, or `AttributeError` if unset. -/
def Record.getattrE (r : Record) (attr_name : String) : Except PyError PyVal :=
  match r.attrs.lookup attr_name with
  | some v => .ok v
  | none => .error .attributeError

/-- `setattr` on the instance dictionary: update in place or append. -/
def setAttrVal (attrs : List (String × PyVal)) (k : String) (v : PyVal) :
    List (String × PyVal) :=
  match attrs with
  | [] => [(k, v)]
  | (k', v') :: rest => if k' = k then (k, v) :: rest else (k', v') :: setAttrVal rest k v

/-- Python truthiness of `self.pk` (an optional string): `None` and `""` are
falsy. -/
def pyFalsyOptStr : Option String → Bool
  | none => true
  | some s => s = ""

/-- `self._col_defs[self.columns[0]].primary_key = True`: flag the first
declared column as primary key (mutation of the shared class object). -/
def promoteFirst : List (String × GenericColumn) → List (String × GenericColumn)
  | [] => []
  | (k, c) :: rest => (k, { c with primary_key := true }) :: rest

/-- `GenericModel.__init__(**kwargs)`.  When the class has no primary key:
with exactly one column the shared class object is mutated to flag that
column as primary key, otherwise `PKMissingException` is raised.  Then every
kwarg naming a declared column is set on the instance (others are silently
ignored).  Returns the new instance together with the (possibly mutated)
shared class object. -/
def GenericModel.init (cls : ModelClass) (kwargs : List (String × PyVal)) :
    Except PyError (Record × ModelClass) :=
  if pyFalsyOptStr cls.pk then
    if cls.col_defs.length = 1 then
      let cls2 := { cls with col_defs := promoteFirst cls.col_defs }
      .ok ({ cls := cls2
             attrs := kwargs.foldl (fun attrs kv =>
               if (cls2.col_defs.lookup kv.1).isSome then setAttrVal attrs kv.1 kv.2
               else attrs) [] }, cls2)
    else
      .error (.pkMissing cls.name)
  else
    .ok ({ cls := cls
           attrs := kwargs.foldl (fun attrs kv =>
             if (cls.col_defs.lookup kv.1).isSome then setAttrVal attrs kv.1 kv.2
             else attrs) [] }, cls)

/-- The four filter functions that `like/not_like/equal/not_equal` register. -/
inductive FilterOp where
  | like
  | not_like
  | equal
  | not_equal
deriving DecidableEq, Repr

/-- One registered `(filter_fn, col_name, value)` triple of `_filters_cmd`. -/
structure FilterCmd where
  op : FilterOp
  col : String
  value : PyVal
deriving DecidableEq, Repr

/-- The mutable state of a `GenericSession`: `_order_by_cmd`, `_filters_cmd`,
`store`, `query_filters` (written but never read by the engine),
`query_class`, `_offset`, `_limit`.  The store maps a schema name to its
record list; an absent name yields `None` (`dict.get` with no default). -/
structure SessionState where
  order_by_cmd : Option String
  filters_cmd : List FilterCmd
  store : String → Option (List Record)
  query_filters : List FilterCmd
  query_cls_name : String
  offset : Int
  limit : Int

/-- `GenericSession.__init__`. -/
def GenericSession.initState : SessionState :=
  { order_by_cmd := none
    filters_cmd := []
    store := fun _ => none
    query_filters := []
    query_cls_name := ""
    offset := 0
    limit := 0 }

/-- `clear()`: delete the entire store. -/
def GenericSession.clear (s : SessionState) : SessionState :=
  { s with store := fun _ => none }

/-- `delete_all(model_cls)`: `self.store[model_cls._name] = []`. -/
def GenericSession.delete_all (s : SessionState) (model_cls : ModelClass) : SessionState :=
  { s with store := fun k => if k = model_cls.name then some [] else s.store k }

/-- `query(model_cls)`: reset the builder state and select the target schema. -/
def GenericSession.query (s : SessionState) (model_cls : ModelClass) : SessionState :=
  { s with
    filters_cmd := []
    query_filters := []
    order_by_cmd := none
    offset := 0
    limit := 0
    query_cls_name := model_cls.name }

/-- `order_by(order_cmd)`. -/
def GenericSession.order_by (s : SessionState) (order_cmd : String) : SessionState :=
  { s with order_by_cmd := some order_cmd }

/-- `offset(offset)`. -/
def GenericSession.offset (s : SessionState) (o : Int) : SessionState :=
  { s with offset := o }

/-- `limit(limit)`. -/
def GenericSession.limit (s : SessionState) (l : Int) : SessionState :=
  { s with limit := l }

/-- `scalar()`: fixed placeholder. -/
def GenericSession.scalar (_ : SessionState) : Int := 0

/-- `like(col_name, value)`: register `(self._like, col_name, value)`. -/
def GenericSession.like (s : SessionState) (col_name : String) (value : PyVal) : SessionState :=
  { s with filters_cmd := s.filters_cmd ++ [⟨.like, col_name, value⟩] }

/-- `not_like(col_name, value)`. -/
def GenericSession.not_like (s : SessionState) (col_name : String) (value : PyVal) : SessionState :=
  { s with filters_cmd := s.filters_cmd ++ [⟨.not_like, col_name, value⟩] }

/-- `equal(col_name, value)`. -/
def GenericSession.equal (s : SessionState) (col_name : String) (value : PyVal) : SessionState :=
  { s with filters_cmd := s.filters_cmd ++ [⟨.equal, col_name, value⟩] }

/-- `not_equal(col_name, value)`. -/
def GenericSession.not_equal (s : SessionState) (col_name : String) (value : PyVal) : SessionState :=
  { s with filters_cmd := s.filters_cmd ++ [⟨.not_equal, col_name, value⟩] }

/-- `_like(item, col_name, value)`: `value in getattr(item, col_name)`. -/
def GenericSession._like (item : Record) (col_name : String) (value : PyVal) :
    Except PyError Bool := do
  let s ← item.getattrE col_name
  pyIn value s

/-- `_not_like(item, col_name, value)`: `value not in getattr(item, col_name)`. -/
def GenericSession._not_like (item : Record) (col_name : String) (value : PyVal) :
    Except PyError Bool := do
  let s ← item.getattrE col_name
  let b ← pyIn value s
  pure (!b)

/-- `_equal(item, col_name, value)`:
`source_value == type(source_value)(value)`. -/
def GenericSession._equal (item : Record) (col_name : String) (value : PyVal) :
    Except PyError Bool := do
  let source_value ← item.getattrE col_name
  let w ← coerceTo source_value.pyType value
  pure (source_value == w)

/-- `_not_equal(item, col_name, value)`:
`source_value != type(source_value)(value)`. -/
def GenericSession._not_equal (item : Record) (col_name : String) (value : PyVal) :
    Except PyError Bool := do
  let source_value ← item.getattrE col_name
  let w ← coerceTo source_value.pyType value
  pure (!(source_value == w))

/-- Dispatch a registered triple `filter_cmd[0](item, filter_cmd[1],
filter_cmd[2])`. -/
def applyFilter (f : FilterCmd) (item : Record) : Except PyError Bool :=
  match f.op with
  | .like => GenericSession._like item f.col f.value
  | .not_like => GenericSession._not_like item f.col f.value
  | .equal => GenericSession._equal item f.col f.value
  | .not_equal => GenericSession._not_equal item f.col f.value

/-- The inner loop of `all()` over one item: conjunction of the registered
predicates in registration order, short-circuiting on the first failure. -/
def passesFilters (fs : List FilterCmd) (item : Record) : Except PyError Bool :=
  match fs with
  | [] => .ok true
  | f :: rest => do
      let b ← applyFilter f item
      if b then passesFilters rest item else pure false

/-- The filtering loop of `all()`: keep the items passing every filter, in
store order. -/
def filterItems (fs : List FilterCmd) : List Record → Except PyError (List Record)
  | [] => .ok []
  | item :: rest => do
      let b ← passesFilters fs item
      let tail ← filterItems fs rest
      pure (if b then item :: tail else tail)

/-- `sorted`'s per-element key extraction (`key=operator.attrgetter(col)`):
pair each record with its key value, in list order. -/
def keyedOf (col_name : String) : List Record → Except PyError (List (PyVal × Record))
  | [] => .ok []
  | r :: rest => do
      let v ← r.getattrE col_name
      let tail ← keyedOf col_name rest
      pure ((v, r) :: tail)

/-- Stable insertion of `a` after every earlier element `b` with `le b a`. -/
def pyOrderedInsert (le : α → α → Bool) (a : α) : List α → List α
  | [] => [a]
  | b :: l => if le a b then a :: b :: l else b :: pyOrderedInsert le a l

/-- Stable insertion sort: the model of Python's (stable) `sorted`. -/
def pyInsertionSort (le : α → α → Bool) : List α → List α
  | [] => []
  | a :: l => pyOrderedInsert le a (pyInsertionSort le l)

/-- The comparison `sorted` uses on the extracted keys: `pyLe` on the keys,
reversed when `reverse=True` (`desc`); equal keys compare `true` either way,
which is what makes the insertion stable. -/
def keyLe (reverse_flag : Bool) (a b : PyVal × Record) : Bool :=
  if reverse_flag then pyLe b.1 a.1 else pyLe a.1 b.1

/-- `_order_by(data, order_cmd)`: `col_name, direction = order_cmd.split()`
(raising `ValueError` unless the split yields exactly two tokens), then
`sorted(data, key=attrgetter(col_name), reverse=(direction == 'desc'))`.
`data` is whatever `all()` passes in: iterating `None` (an absent schema)
raises `TypeError`. -/
def GenericSession._order_by (data : Option (List Record)) (order_cmd : String) :
    Except PyError (List Record) :=
  match (order_cmd.data.splitOnP Char.isWhitespace).filter (fun t => !t.isEmpty)
      |>.map (fun l => String.mk l) with
  | [col_name, direction] =>
      match data with
      | none => .error .typeError
      | some l => do
          let keyed ← keyedOf col_name l
          pure ((pyInsertionSort (keyLe (direction == "desc")) keyed).map Prod.snd)
  | _ => .error .valueError

/-- Python truthiness of `self._order_by_cmd`: `None` and `""` are falsy. -/
def pyTruthyOptStr : Option String → Bool
  | none => false
  | some s => !(s == "")

/-- One bound of a Python slice `l[start:stop]`: negative indices count from
the end (clamped at 0), positive ones are clamped at the length. -/
def pySliceIdx (len : Nat) (i : Int) : Nat :=
  if i < 0 then ((len : Int) + i).toNat else min i.toNat len

/-- Python list slice `l[start:stop]`. -/
def pySlice (l : List α) (start stop : Int) : List α :=
  (l.take (pySliceIdx l.length stop)).drop (pySliceIdx l.length start)

/-- The first half of `all()`: `items = self.store.get(self.query_class)`
when no filter is registered, otherwise the filtering loop over the stored
sequence (iterating `None` for an absent schema raises `TypeError`). -/
def GenericSession.allFilterStage (s : SessionState) : Except PyError (Option (List Record)) :=
  if s.filters_cmd.isEmpty then
    .ok (s.store s.query_cls_name)
  else
    match s.store s.query_cls_name with
    | none => .error .typeError
    | some stored => (filterItems s.filters_cmd stored).map some

/-- The `if self._order_by_cmd: items = self._order_by(items, ...)` step. -/
def GenericSession.allOrderStage (s : SessionState) (items0 : Option (List Record)) :
    Except PyError (Option (List Record)) :=
  if pyTruthyOptStr s.order_by_cmd then
    (GenericSession._order_by items0 (s.order_by_cmd.getD "")).map some
  else
    .ok items0

/-- The value computed by `all()`: filter, then order, then take
`total_length = len(items)` (a `TypeError` when `items` is still `None`),
then slice `[offset : offset + limit]` only when `limit != 0`. -/
def GenericSession.allRes (s : SessionState) : Except PyError (Nat × List Record) := do
  let items0 ← GenericSession.allFilterStage s
  let items1 ← GenericSession.allOrderStage s items0
  match items1 with
  | none => Except.error PyError.typeError
  | some items =>
      let total_length := items.length
      let items2 :=
        if s.limit ≠ 0 then pySlice items s.offset (s.offset + s.limit) else items
      pure (total_length, items2)

/-- `all()` as a method: it only reads the session state (the source assigns
nothing to `self`), so the state comes back unchanged alongside the result. -/
def GenericSession.all (s : SessionState) :
    Except PyError ((Nat × List Record) × SessionState) :=
  (GenericSession.allRes s).map (fun r => (r, s))

/-- The loop of `get(pk)`: per item, `pk` is rebound to
`item.properties[item.pk].col_type(pk)` (a `KeyError` if the class has no
`pk` or `pk` names no column, a coercion error if the cast fails), then the
item is returned if its primary-key attribute equals the coerced `pk`. -/
def getLoopPK : List Record → PyVal → Except PyError (Option Record)
  | [], _ => .ok none
  | item :: rest, pk =>
      match item.cls.pk with
      | none => .error .keyError
      | some pkName =>
          match item.cls.col_defs.lookup pkName with
          | none => .error .keyError
          | some pkCol => do
              let pk2 ← coerceTo pkCol.col_type pk
              let v ← item.getattrE pkName
              if v = pk2 then pure (some item) else getLoopPK rest pk2

/-- The value computed by `get(pk)`: iterate
`self.store.get(self.query_class)` (`TypeError` when the schema name is
absent, since that iterates `None`); falling off the loop returns `None`. -/
def GenericSession.getRes (s : SessionState) (pk : PyVal) : Except PyError (Option Record) :=
  match s.store s.query_cls_name with
  | none => .error .typeError
  | some stored => getLoopPK stored pk

/-- `get(pk)` as a method: reads only, state unchanged. -/
def GenericSession.get (s : SessionState) (pk : PyVal) :
    Except PyError (Option Record × SessionState) :=
  (GenericSession.getRes s pk).map (fun r => (r, s))

/-- `add(model)`: when `self.store.get(name)` is falsy (absent, or an empty
list) the entry is (re)set to `[]`; then the model is appended. -/
def GenericSession.add (s : SessionState) (model : Record) : SessionState :=
  let model_cls_name := model.cls.name
  let base : List Record :=
    match s.store model_cls_name with
    | none => []
    | some [] => []
    | some l => l
  { s with store := fun k => if k = model_cls_name then some (base ++ [model]) else s.store k }

/-! Concrete schemas, records and session states used to evaluate the code at
specific inputs. -/

/-- A two-column schema with a declared primary key. -/
def personCls : ModelClass :=
  mkModelClass "Person" [("id", ⟨.int, true, false, false⟩), ("name", ⟨.str, false, false, false⟩)]

/-- A `Person` record. -/
def mkPerson (i : Int) (nm : String) : Record :=
  { cls := personCls, attrs := [("id", .int i), ("name", .str nm)] }

def person1 : Record := mkPerson 1 "ann"
def person2 : Record := mkPerson 2 "bob"
def person3 : Record := mkPerson 3 "carol"
def person4 : Record := mkPerson 4 "dora"
def person5 : Record := mkPerson 5 "ed"

/-- A store holding the five `Person` records, and nothing else. -/
def storePeople5 : String → Option (List Record) :=
  fun k => if k = "Person" then some [person1, person2, person3, person4, person5] else none

/-- A session targeting `Person` over an empty store (the schema name is
absent from the store dictionary). -/
def sessionAbsent : SessionState :=
  GenericSession.query GenericSession.initState personCls

/-- `query(Person).offset(2).limit(0)` over the five-record store. -/
def sessionOffset2Limit0 : SessionState :=
  GenericSession.offset
    (GenericSession.query { GenericSession.initState with store := storePeople5 } personCls) 2

/-- The ordering example: ids 1, 2, 3 with names "b", "b", "a". -/
def ordRec1 : Record := mkPerson 1 "b"
def ordRec2 : Record := mkPerson 2 "b"
def ordRec3 : Record := mkPerson 3 "a"

def ordData : List Record := [ordRec1, ordRec2, ordRec3]

/-- A store holding only the three ordering-example records. -/
def storeOrd : String → Option (List Record) :=
  fun k => if k = "Person" then some ordData else none

/-- `query(Person).order_by("name asc")` over the ordering-example store. -/
def sessionOrdByNameAsc : SessionState :=
  GenericSession.order_by
    (GenericSession.query { GenericSession.initState with store := storeOrd } personCls)
    "name asc"

/-- A one-column record type with no declared primary key. -/
def soloCls : ModelClass :=
  mkModelClass "Solo" [("id", ⟨.int, false, false, false⟩)]

/-- A two-column record type with no declared primary key. -/
def duoCls : ModelClass :=
  mkModelClass "Duo" [("a", ⟨.int, false, false, false⟩), ("b", ⟨.str, false, false, false⟩)]

/-! Order-relation facts about the comparison `sorted` uses. -/

theorem lexLeChars_refl (l : List Char) : lexLeChars l l = true := by
  induction l with
  | nil => rfl
  | cons a as ih => simp [lexLeChars, lt_irrefl, ih]

theorem pyLe_refl (v : PyVal) : pyLe v v = true := by
  cases v with
  | int n => simp [pyLe]
  | str s => simp [pyLe, lexLeChars_refl]

theorem lexLeChars_total (a b : List Char) :
    lexLeChars a b = true ∨ lexLeChars b a = true := by
  induction a generalizing b with
  | nil => left; rfl
  | cons x xs ih =>
    cases b with
    | nil => right; rfl
    | cons y ys =>
      rcases lt_trichotomy x y with h | h | h
      · left; simp [lexLeChars, h]
      · subst h
        rcases ih ys with h2 | h2
        · left; simp [lexLeChars, lt_irrefl, h2]
        · right; simp [lexLeChars, lt_irrefl, h2]
      · right; simp [lexLeChars, h]

theorem pyLe_total (a b : PyVal) : pyLe a b = true ∨ pyLe b a = true := by
  cases a with
  | int m =>
    cases b with
    | int n =>
      rcases Int.le_total m n with h | h
      · left; simpa [pyLe] using h
      · right; simpa [pyLe] using h
    | str t => left; rfl
  | str s =>
    cases b with
    | int n => right; rfl
    | str t => simpa [pyLe] using lexLeChars_total s.data t.data

theorem lexLeChars_trans {a b c : List Char} (h1 : lexLeChars a b = true)
    (h2 : lexLeChars b c = true) : lexLeChars a c = true := by
  induction a generalizing b c with
  | nil => rfl
  | cons x xs ih =>
    cases b with
    | nil => simp [lexLeChars] at h1
    | cons y ys =>
      cases c with
      | nil => simp [lexLeChars] at h2
      | cons z zs =>
        rcases lt_trichotomy x y with hxy | hxy | hxy
        · rcases lt_trichotomy y z with hyz | hyz | hyz
          · simp [lexLeChars, lt_trans hxy hyz]
          · subst hyz; simp [lexLeChars, hxy]
          · simp [lexLeChars, hyz, not_lt_of_gt hyz] at h2
        · subst hxy
          rcases lt_trichotomy x z with hyz | hyz | hyz
          · simp [lexLeChars, hyz]
          · subst hyz
            simp only [lexLeChars, lt_irrefl, if_false] at h1 h2 ⊢
            exact ih h1 h2
          · simp [lexLeChars, hyz, not_lt_of_gt hyz] at h2
        · simp [lexLeChars, hxy, not_lt_of_gt hxy] at h1

theorem pyLe_trans {a b c : PyVal} (h1 : pyLe a b = true) (h2 : pyLe b c = true) :
    pyLe a c = true := by
  cases a with
  | int m =>
    cases c with
    | int p =>
      cases b with
      | int n =>
        simp only [pyLe, decide_eq_true_eq] at h1 h2 ⊢
        exact le_trans h1 h2
      | str t => simp [pyLe] at h2
    | str t => rfl
  | str s =>
    cases b with
    | int n => simp [pyLe] at h1
    | str t =>
      cases c with
      | int p => simp [pyLe] at h2
      | str u =>
        simp only [pyLe] at h1 h2 ⊢
        exact lexLeChars_trans h1 h2

/-! Permutation, sortedness and stability of the model of `sorted`. -/

theorem pyOrderedInsert_perm (le : α → α → Bool) (a : α) (l : List α) :
    List.Perm (pyOrderedInsert le a l) (a :: l) := by
  induction l with
  | nil => exact List.Perm.refl _
  | cons b t ih =>
    simp only [pyOrderedInsert]
    by_cases h : le a b = true
    · simp [h]
    · simp only [h, if_false]
      exact (ih.cons b).trans (List.Perm.swap a b t)

theorem pyInsertionSort_perm (le : α → α → Bool) (l : List α) :
    List.Perm (pyInsertionSort le l) l := by
  induction l with
  | nil => exact List.Perm.refl _
  | cons a t ih =>
    simp only [pyInsertionSort]
    exact (pyOrderedInsert_perm le a (pyInsertionSort le t)).trans (ih.cons a)

theorem mem_pyOrderedInsert {le : α → α → Bool} {a x : α} {l : List α} :
    x ∈ pyOrderedInsert le a l ↔ x = a ∨ x ∈ l := by
  rw [(pyOrderedInsert_perm le a l).mem_iff]
  simp

theorem pairwise_pyOrderedInsert {le : α → α → Bool}
    (total : ∀ x y, le x y = true ∨ le y x = true)
    (htrans : ∀ x y z, le x y = true → le y z = true → le x z = true)
    (a : α) {l : List α} (hl : l.Pairwise (fun x y => le x y = true)) :
    (pyOrderedInsert le a l).Pairwise (fun x y => le x y = true) := by
  induction l with
  | nil => simp [pyOrderedInsert]
  | cons b t ih =>
    rcases List.pairwise_cons.mp hl with ⟨hb, ht⟩
    simp only [pyOrderedInsert]
    by_cases h : le a b = true
    · simp only [h, if_true]
      refine List.pairwise_cons.mpr ⟨?_, hl⟩
      intro x hx
      rcases List.mem_cons.mp hx with rfl | hx
      · exact h
      · exact htrans a b x h (hb x hx)
    · simp only [h, if_false]
      refine List.pairwise_cons.mpr ⟨?_, ih ht⟩
      intro x hx
      rcases mem_pyOrderedInsert.mp hx with rfl | hx
      · rcases total x b with h2 | h2
        · exact absurd h2 h
        · exact h2
      · exact hb x hx

theorem pairwise_pyInsertionSort {le : α → α → Bool}
    (total : ∀ x y, le x y = true ∨ le y x = true)
    (htrans : ∀ x y z, le x y = true → le y z = true → le x z = true)
    (l : List α) :
    (pyInsertionSort le l).Pairwise (fun x y => le x y = true) := by
  induction l with
  | nil => simp [pyInsertionSort]
  | cons a t ih =>
    exact pairwise_pyOrderedInsert total htrans a ih

theorem filter_pyOrderedInsert_neg {le : α → α → Bool} {p : α → Bool} {a : α}
    (ha : p a = false) (l : List α) :
    (pyOrderedInsert le a l).filter p = l.filter p := by
  induction l with
  | nil => simp [pyOrderedInsert, List.filter, ha]
  | cons b t ih =>
    simp only [pyOrderedInsert]
    by_cases h : le a b = true
    · simp [h, List.filter, ha]
    · simp only [h, if_false]
      simp [List.filter_cons, ih]

theorem filter_pyOrderedInsert_pos {le : α → α → Bool} {p : α → Bool} {a : α}
    (ha : p a = true) {l : List α} (hab : ∀ b ∈ l, p b = true → le a b = true) :
    (pyOrderedInsert le a l).filter p = a :: l.filter p := by
  induction l with
  | nil => simp [pyOrderedInsert, List.filter, ha]
  | cons b t ih =>
    simp only [pyOrderedInsert]
    by_cases h : le a b = true
    · simp [h, List.filter_cons, ha]
    · simp only [h, if_false]
      have hpb : p b = false := by
        cases hpb : p b with
        | false => rfl
        | true => exact absurd (hab b (List.mem_cons_self b t) hpb) h
      have ih2 := ih (fun x hx hpx => hab x (List.mem_cons_of_mem b hx) hpx)
      simp [List.filter_cons, hpb, ih2]

theorem filter_pyInsertionSort {le : α → α → Bool} {p : α → Bool}
    (hequiv : ∀ x y, p x = true → p y = true → le x y = true) (l : List α) :
    (pyInsertionSort le l).filter p = l.filter p := by
  induction l with
  | nil => rfl
  | cons a t ih =>
    simp only [pyInsertionSort]
    cases hpa : p a with
    | false =>
      rw [filter_pyOrderedInsert_neg hpa, ih]
      simp [List.filter_cons, hpa]
    | true =>
      have hab : ∀ b ∈ pyInsertionSort le t, p b = true → le a b = true :=
        fun b _ hpb => hequiv a b hpa hpb
      rw [filter_pyOrderedInsert_pos hpa hab, ih]
      simp [List.filter_cons, hpa]

/-! Characterization of the substring test used by `_like`. -/

theorem isPrefixChars_iff (n l : List Char) :
    isPrefixChars n l = true ↔ ∃ q, l = n ++ q := by
  induction n generalizing l with
  | nil => simp [isPrefixChars]
  | cons a as ih =>
    cases l with
    | nil =>
      simp [isPrefixChars]
    | cons b bs =>
      simp only [isPrefixChars, Bool.and_eq_true, decide_eq_true_eq, ih, List.cons_append,
        List.cons.injEq]
      constructor
      · rintro ⟨rfl, q, rfl⟩
        exact ⟨q, rfl, rfl⟩
      · rintro ⟨q, rfl, rfl⟩
        exact ⟨rfl, q, rfl⟩

theorem containsChars_iff (n l : List Char) :
    containsChars n l = true ↔ ∃ p q, l = p ++ n ++ q := by
  induction l with
  | nil =>
    simp only [containsChars, isPrefixChars_iff]
    constructor
    · rintro ⟨q, hq⟩
      exact ⟨[], q, by simpa using hq⟩
    · rintro ⟨p, q, hq⟩
      rcases List.append_eq_nil.mp (List.append_eq_nil.mp hq.symm).1 with ⟨rfl, rfl⟩
      exact ⟨q, by simpa using hq⟩
  | cons c cs ih =>
    simp only [containsChars, Bool.or_eq_true, isPrefixChars_iff, ih]
    constructor
    · rintro (⟨q, hq⟩ | ⟨p, q, hq⟩)
      · exact ⟨[], q, by simpa using hq⟩
      · exact ⟨c :: p, q, by simp [hq]⟩
    · rintro ⟨p, q, hq⟩
      cases p with
      | nil => exact Or.inl ⟨q, by simpa using hq⟩
      | cons x xs =>
        simp only [List.cons_append, List.cons.injEq] at hq
        exact Or.inr ⟨xs, q, hq.2⟩

theorem pyInStr_iff (n h : String) :
    pyInStr n h = true ↔ ∃ p q : String, h = p ++ n ++ q := by
  rw [pyInStr, containsChars_iff]
  constructor
  · rintro ⟨p, q, hq⟩
    refine ⟨⟨p⟩, ⟨q⟩, ?_⟩
    apply String.ext
    simpa [String.data_append] using hq
  · rintro ⟨p, q, rfl⟩
    exact ⟨p.data, q.data, by simp [String.data_append]⟩

/-! Small facts about filtering, key extraction and coercion. -/

theorem filterItems_nil (l : List Record) : filterItems [] l = .ok l := by
  induction l with
  | nil => rfl
  | cons r rest ih => simp [filterItems, passesFilters, ih, Bind.bind, Except.bind, pure, Except.pure]

theorem keyedOf_ok {col : String} {data : List Record} {keyed : List (PyVal × Record)}
    (h : keyedOf col data = .ok keyed) :
    keyed.map Prod.snd = data ∧ ∀ kv ∈ keyed, kv.2.getattrE col = .ok kv.1 := by
  induction data generalizing keyed with
  | nil =>
    cases h
    exact ⟨rfl, by simp⟩
  | cons r rest ih =>
    simp only [keyedOf, Bind.bind, Except.bind] at h
    cases hr : r.getattrE col with
    | error e => rw [hr] at h; cases h
    | ok v =>
      rw [hr] at h
      cases ht : keyedOf col rest with
      | error e => rw [ht] at h; cases h
      | ok tail =>
        rw [ht] at h
        cases h
        rcases ih ht with ⟨hmap, hmem⟩
        refine ⟨by simp [hmap], ?_⟩
        intro kv hkv
        rcases List.mem_cons.mp hkv with rfl | hkv
        · exact hr
        · exact hmem kv hkv

theorem coerceTo_idem {t : PyType} {v w : PyVal} (h : coerceTo t v = .ok w) :
    coerceTo t w = .ok w := by
  cases t with
  | str =>
    cases v with
    | int n => cases h; rfl
    | str s => cases h; rfl
  | int =>
    cases v with
    | int n => cases h; rfl
    | str s =>
      simp only [coerceTo] at h
      cases hp : parseIntPy s with
      | none => rw [hp] at h; cases h
      | some n => rw [hp] at h; cases h; rfl

theorem getLoopPK_find {C : ModelClass} {pcol : String} {pkCol : GenericColumn}
    (hpk : C.pk = some pcol) (hdef : C.col_defs.lookup pcol = some pkCol) :
    ∀ (l : List Record) (pk pk2 : PyVal),
      (∀ r ∈ l, r.cls = C) →
      (∀ r ∈ l, (r.attrs.lookup pcol).isSome) →
      coerceTo pkCol.col_type pk = .ok pk2 →
      getLoopPK l pk = .ok (l.find? (fun r => r.attrs.lookup pcol == some pk2)) := by
  intro l
  induction l with
  | nil => intro pk pk2 _ _ _; rfl
  | cons item rest ih =>
    intro pk pk2 hcls hattr hco
    have hitem : item.cls = C := hcls item (List.mem_cons_self item rest)
    rcases Option.isSome_iff_exists.mp (hattr item (List.mem_cons_self item rest)) with ⟨v, hv⟩
    simp only [getLoopPK, hitem, hpk, hdef, Bind.bind, Except.bind, hco,
      Record.getattrE, hv]
    by_cases heq : v = pk2
    · subst heq
      simp [List.find?_cons, hv, pure, Except.pure]
    · have hfalse : (item.attrs.lookup pcol == some pk2) = false := by
        simp [hv, heq]
      simp only [if_neg heq, List.find?_cons, hfalse]
      exact ih pk2 pk2 (fun r hr => hcls r (List.mem_cons_of_mem item hr))
        (fun r hr => hattr r (List.mem_cons_of_mem item hr)) (coerceTo_idem hco)

/-! The claims. -/

/-- C1: the claim says that for a session whose target schema name is absent
from the store, `all()` returns `(0, [])` and `get(pk)` returns an absent
result, never raising.  The code does the opposite: `store.get` yields `None`
and both evaluations raise `TypeError` on it, for every `pk`. -/
theorem C1_absent_schema_raises :
    sessionAbsent.store sessionAbsent.query_cls_name = none ∧
    GenericSession.all sessionAbsent = .error .typeError ∧
    ∀ pk : PyVal, GenericSession.get sessionAbsent pk = .error .typeError :=
  ⟨rfl, rfl, fun _ => rfl⟩

/-- C3: constructing a one-column record type with no declared primary key
succeeds and flags the column's `primary_key` on the shared class object —
but the schema's `pk` attribute (the thing `get()` and `if not self.pk`
consult, and how the schema reports its primary key) is never updated: it
stays `None`, for this and every later construction. -/
theorem C3_promotion_flags_column_but_pk_stays_none :
    ∃ rec cls2, GenericModel.init soloCls [("id", PyVal.int 7)] = .ok (rec, cls2) ∧
      rec.cls = cls2 ∧
      (cls2.col_defs.lookup "id").map GenericColumn.primary_key = some true ∧
      cls2.pk = none ∧
      GenericModel.init cls2 [] = .ok ({ cls := cls2, attrs := [] }, cls2) :=
  ⟨{ cls := { name := "Solo", col_defs := [("id", ⟨.int, true, false, false⟩)], pk := none }
     attrs := [("id", PyVal.int 7)] },
   { name := "Solo", col_defs := [("id", ⟨.int, true, false, false⟩)], pk := none },
   rfl, rfl, rfl, rfl, rfl⟩

/-- C8: with two or more declared columns and none flagged primary key, every
construction raises `PKMissingException` (the class-level `pk` is `None` and
the single-column promotion branch cannot apply). -/
theorem C8_multicolumn_no_pk_always_raises (model_name : String)
    (cols : List (String × GenericColumn)) (kwargs : List (String × PyVal))
    (hnopk : ∀ kv ∈ cols, kv.2.primary_key = false) (hlen : 2 ≤ cols.length) :
    GenericModel.init (mkModelClass model_name cols) kwargs =
      .error (.pkMissing model_name) := by
  have hfind : cols.find? (fun kv => kv.2.primary_key) = none := by
    rw [List.find?_eq_none]
    intro kv hkv
    simp [hnopk kv hkv]
  have hlen1 : cols.length ≠ 1 := by omega
  simp [GenericModel.init, mkModelClass, hfind, pyFalsyOptStr, hlen1]

theorem C8_multicolumn_no_pk_always_raises_witness :
    GenericModel.init duoCls [("a", PyVal.int 1)] = .error (.pkMissing "Duo") :=
  C8_multicolumn_no_pk_always_raises "Duo"
    [("a", ⟨.int, false, false, false⟩), ("b", ⟨.str, false, false, false⟩)]
    [("a", PyVal.int 1)] (by decide) (by decide)

/-- C10: `add(model)` never fails, appends the record to its schema's
sequence (an absent entry counting as empty), and leaves every other schema's
sequence and all builder state untouched. -/
theorem C10_add_appends (s : SessionState) (m : Record) :
    (GenericSession.add s m).store m.cls.name =
      some (((s.store m.cls.name).getD []) ++ [m]) ∧
    (∀ k, k ≠ m.cls.name → (GenericSession.add s m).store k = s.store k) ∧
    (GenericSession.add s m).filters_cmd = s.filters_cmd ∧
    (GenericSession.add s m).order_by_cmd = s.order_by_cmd ∧
    (GenericSession.add s m).query_cls_name = s.query_cls_name ∧
    (GenericSession.add s m).offset = s.offset ∧
    (GenericSession.add s m).limit = s.limit := by
  refine ⟨?_, ?_, rfl, rfl, rfl, rfl, rfl⟩
  · simp only [GenericSession.add]
    cases h : s.store m.cls.name with
    | none => simp [h]
    | some l =>
      cases l with
      | nil => simp [h]
      | cons a t => simp [h]
  · intro k hk
    simp [GenericSession.add, hk]

theorem C10_add_appends_witness :
    (GenericSession.add sessionAbsent person1).store person1.cls.name =
      some (((sessionAbsent.store person1.cls.name).getD []) ++ [person1]) ∧
    (GenericSession.add sessionAbsent person1).store "Other" =
      sessionAbsent.store "Other" :=
  ⟨(C10_add_appends sessionAbsent person1).1,
   (C10_add_appends sessionAbsent person1).2.1 "Other" (by decide)⟩

/-- C9: `all()` and `get()` are pure readers — the source assigns nothing to
`self` or the store — so the state they hand back is the input state, and an
immediate second call returns the same result. -/
theorem C9_all_get_pure_readers (s : SessionState) :
    (∀ r s2, GenericSession.all s = .ok (r, s2) →
      s2 = s ∧ GenericSession.all s2 = .ok (r, s2)) ∧
    (∀ pk r s2, GenericSession.get s pk = .ok (r, s2) →
      s2 = s ∧ GenericSession.get s2 pk = .ok (r, s2)) := by
  constructor
  · intro r s2 h
    cases hres : GenericSession.allRes s with
    | error e => simp [GenericSession.all, hres, Except.map] at h
    | ok v =>
      simp only [GenericSession.all, hres, Except.map] at h
      injection h with h2
      rw [Prod.ext_iff] at h2
      obtain ⟨rfl, hs⟩ := h2
      subst hs
      exact ⟨rfl, by simp [GenericSession.all, hres, Except.map]⟩
  · intro pk r s2 h
    cases hres : GenericSession.getRes s pk with
    | error e => simp [GenericSession.get, hres, Except.map] at h
    | ok v =>
      simp only [GenericSession.get, hres, Except.map] at h
      injection h with h2
      rw [Prod.ext_iff] at h2
      obtain ⟨rfl, hs⟩ := h2
      subst hs
      exact ⟨rfl, by simp [GenericSession.get, hres, Except.map]⟩

theorem C9_all_get_pure_readers_witness :
    GenericSession.all sessionOffset2Limit0 =
      .ok ((5, [person1, person2, person3, person4, person5]), sessionOffset2Limit0) ∧
    GenericSession.get sessionOffset2Limit0 (.int 3) =
      .ok (some person3, sessionOffset2Limit0) := by
  have h1 := ((C9_all_get_pure_readers sessionOffset2Limit0).1
    ((5 : Nat), [person1, person2, person3, person4, person5]) sessionOffset2Limit0 rfl).2
  have h2 := ((C9_all_get_pure_readers sessionOffset2Limit0).2
    (.int 3) (some person3) sessionOffset2Limit0 rfl).2
  exact ⟨h1, h2⟩

/-- C4: `_equal` compares the stored value with the literal coerced by the
constructor of the stored value's runtime type (`type(source_value)(value)`),
not the column's declared type (the class object plays no part at all);
`_not_equal` is its pointwise negation; a failing coercion propagates as the
conversion error, for both. -/
theorem C4_equal_coerces_to_runtime_type (r : Record) (col_name : String)
    (lit sv : PyVal) (hstored : r.getattrE col_name = .ok sv) :
    (∀ w, coerceTo sv.pyType lit = .ok w →
      GenericSession._equal r col_name lit = .ok (sv == w) ∧
      GenericSession._not_equal r col_name lit = .ok (!(sv == w))) ∧
    (∀ e, coerceTo sv.pyType lit = .error e →
      GenericSession._equal r col_name lit = .error e ∧
      GenericSession._not_equal r col_name lit = .error e) ∧
    (∀ cls2, GenericSession._equal { r with cls := cls2 } col_name lit =
      GenericSession._equal r col_name lit) := by
  refine ⟨?_, ?_, fun cls2 => rfl⟩
  · intro w hw
    constructor <;>
      simp [GenericSession._equal, GenericSession._not_equal, Bind.bind, Except.bind,
        hstored, hw, pure, Except.pure]
  · intro e he
    constructor <;>
      simp [GenericSession._equal, GenericSession._not_equal, Bind.bind, Except.bind,
        hstored, he]

theorem C4_equal_coerces_to_runtime_type_witness :
    GenericSession._equal person1 "id" (PyVal.str "1") = .ok true ∧
    GenericSession._equal person1 "id" (PyVal.str "1.5") = .error .valueError := by
  have h1 := ((C4_equal_coerces_to_runtime_type person1 "id" (PyVal.str "1")
    (PyVal.int 1) rfl).1 (PyVal.int 1) (by decide)).1
  have h2 := ((C4_equal_coerces_to_runtime_type person1 "id" (PyVal.str "1.5")
    (PyVal.int 1) rfl).2.1 PyError.valueError (by decide)).1
  exact ⟨by simpa using h1, h2⟩

/-- C2's counterexample: with `offset=2, limit=0` and 5 matching records the
claim predicts records 3–5; the code skips the slice entirely when
`limit == 0` and returns all five records (the offset is ignored, not
applied). -/
theorem C2_offset2_limit0_counterexample :
    sessionOffset2Limit0.offset = 2 ∧ sessionOffset2Limit0.limit = 0 ∧
    GenericSession.allRes sessionOffset2Limit0 =
      .ok (5, [person1, person2, person3, person4, person5]) ∧
    [person1, person2, person3, person4, person5] ≠ [person3, person4, person5] := by
  exact ⟨rfl, rfl, by decide, by decide⟩

/-- C2 (amended): `limit = 0` disables the pagination slice entirely — the
offset is ignored along with the limit, every record surviving filtering and
ordering is returned, and `total_count` equals the length of that full
(post-filter, pre-pagination) sequence. -/
theorem C2_limit0_disables_pagination (s : SessionState) (h : s.limit = 0) :
    (∀ o : Int, GenericSession.allRes { s with offset := o } = GenericSession.allRes s) ∧
    (∀ t items, GenericSession.allRes s = .ok (t, items) → t = items.length) := by
  constructor
  · intro o
    obtain ⟨ob, fc, st, qf, qc, off, lim⟩ := s
    replace h : lim = 0 := h
    subst h
    simp [GenericSession.allRes, GenericSession.allFilterStage,
      GenericSession.allOrderStage]
  · intro t items hres
    simp only [GenericSession.allRes, Bind.bind, Except.bind] at hres
    cases h0 : GenericSession.allFilterStage s with
    | error e =>
      simp only [h0] at hres
      cases hres
    | ok i0 =>
      simp only [h0] at hres
      cases h1 : GenericSession.allOrderStage s i0 with
      | error e =>
        simp only [h1] at hres
        cases hres
      | ok i1 =>
        simp only [h1] at hres
        cases i1 with
        | none => cases hres
        | some found =>
          have hne : ¬ ((0 : Int) ≠ 0) := by omega
          simp only [h, pure, Except.pure] at hres
          rw [if_neg hne] at hres
          injection hres with h2
          rw [Prod.ext_iff] at h2
          obtain ⟨rfl, rfl⟩ := h2
          rfl

theorem C2_limit0_disables_pagination_witness :
    GenericSession.allRes { sessionOffset2Limit0 with offset := 37 } =
      GenericSession.allRes sessionOffset2Limit0 :=
  (C2_limit0_disables_pagination sessionOffset2Limit0 rfl).1 37

/-- C6: `get(pk)` reads nothing of the builder state — registered filters,
the ordering directive, `query_filters` and the pagination bounds are
irrelevant to it — and on a store holding records of the target schema it
coerces `pk` to the primary-key column's declared type and returns the first
record of the full, unfiltered sequence whose primary-key attribute equals
the coerced value (`none` when no record matches). -/
theorem C6_get_ignores_builder_state (s : SessionState) (fs : List FilterCmd)
    (ob : Option String) (qf : List FilterCmd) (off lim : Int) (pk : PyVal) :
    GenericSession.getRes
      { s with
        filters_cmd := fs
        order_by_cmd := ob
        query_filters := qf
        offset := off
        limit := lim } pk =
      GenericSession.getRes s pk ∧
    ∀ (l : List Record) (C : ModelClass) (pcol : String) (pkCol : GenericColumn)
        (pk2 : PyVal),
      s.store s.query_cls_name = some l → l ≠ [] →
      (∀ r ∈ l, r.cls = C) → C.pk = some pcol →
      C.col_defs.lookup pcol = some pkCol →
      (∀ r ∈ l, (r.attrs.lookup pcol).isSome) →
      coerceTo pkCol.col_type pk = .ok pk2 →
      GenericSession.getRes s pk =
        .ok (l.find? (fun r => r.attrs.lookup pcol == some pk2)) := by
  refine ⟨rfl, ?_⟩
  intro l C pcol pkCol pk2 hstore _ hcls hpk hdef hattr hco
  simp only [GenericSession.getRes, hstore]
  exact getLoopPK_find hpk hdef l pk pk2 hcls hattr hco

theorem C6_get_ignores_builder_state_witness :
    GenericSession.getRes
      { sessionOffset2Limit0 with
        filters_cmd := [⟨.like, "name", .str "zzz"⟩]
        order_by_cmd := some "name desc"
        query_filters := []
        offset := 4
        limit := 1 } (.str "3") =
      GenericSession.getRes sessionOffset2Limit0 (.str "3") ∧
    GenericSession.getRes sessionOffset2Limit0 (.str "3") = .ok (some person3) := by
  have h := C6_get_ignores_builder_state sessionOffset2Limit0
    [⟨.like, "name", .str "zzz"⟩] (some "name desc") [] 4 1 (.str "3")
  refine ⟨h.1, ?_⟩
  have h2 := h.2 [person1, person2, person3, person4, person5] personCls "id"
    ⟨.int, true, false, false⟩ (.int 3) rfl (by decide) (by decide) rfl rfl
    (by decide) (by decide)
  rw [h2]
  decide

/-- C7's counterexample: the claim says `like` tests containment in the
string-rendering of the field's value, well-defined even for non-string
values; here `str(1) = "1"` contains `"1"`, so the claim predicts `true`, but
the code runs `value in getattr(...)` on the raw int and raises `TypeError`. -/
theorem C7_like_int_field_counterexample :
    GenericSession._like person1 "id" (PyVal.str "1") = .error .typeError ∧
    GenericSession._like person1 "id" (PyVal.str "1") ≠ .ok true ∧
    pyInStr "1" (pyStr (PyVal.int 1)) = true := by
  exact ⟨rfl, by decide, by decide⟩

/-- C7 (amended): on a string-valued field `like(field, substr)` is true iff
`substr` occurs contiguously inside the raw stored string, and `not_like` is
its negation; there is no string-rendering step — a non-string stored value
makes both raise `TypeError` (`value in <int>` is not iterable), as does a
non-string needle against a string field. -/
theorem C7_like_is_substring_on_strings :
    (∀ (r : Record) (col hv n : String), r.getattrE col = .ok (.str hv) →
      GenericSession._like r col (.str n) = .ok (pyInStr n hv) ∧
      GenericSession._not_like r col (.str n) = .ok (!(pyInStr n hv)) ∧
      (pyInStr n hv = true ↔ ∃ p q : String, hv = p ++ n ++ q)) ∧
    (∀ (r : Record) (col : String) (m : Int) (v : PyVal),
      r.getattrE col = .ok (.int m) →
      GenericSession._like r col v = .error .typeError ∧
      GenericSession._not_like r col v = .error .typeError) ∧
    (∀ (r : Record) (col hv : String) (m : Int), r.getattrE col = .ok (.str hv) →
      GenericSession._like r col (.int m) = .error .typeError) := by
  refine ⟨?_, ?_, ?_⟩
  · intro r col hv n hstored
    refine ⟨?_, ?_, pyInStr_iff n hv⟩ <;>
      simp [GenericSession._like, GenericSession._not_like, Bind.bind, Except.bind,
        hstored, pyIn, pure, Except.pure]
  · intro r col m v hstored
    cases v <;>
      simp [GenericSession._like, GenericSession._not_like, Bind.bind, Except.bind,
        hstored, pyIn]
  · intro r col hv m hstored
    simp [GenericSession._like, Bind.bind, Except.bind, hstored, pyIn]

theorem C7_like_is_substring_on_strings_witness :
    GenericSession._like person2 "name" (PyVal.str "ob") = .ok (pyInStr "ob" "bob") ∧
    pyInStr "ob" "bob" = true ∧
    GenericSession._like person2 "id" (PyVal.str "2") = .error .typeError :=
  ⟨((C7_like_is_substring_on_strings.1 person2 "name" "bob" "ob" rfl).1),
   by decide,
   ((C7_like_is_substring_on_strings.2.1 person2 "id" 2 (PyVal.str "2") rfl).1)⟩

theorem getattrE_ok_iff {r : Record} {col : String} {v : PyVal} :
    r.getattrE col = .ok v ↔ r.attrs.lookup col = some v := by
  rw [Record.getattrE]
  cases h : r.attrs.lookup col with
  | none => simp
  | some w => simp

theorem filter_map_snd (p : β → Bool) (l : List (α × β)) :
    (l.map Prod.snd).filter p = (l.filter (fun ab => p ab.2)).map Prod.snd := by
  induction l with
  | nil => rfl
  | cons ab t ih =>
    cases hp : p ab.2 with
    | false => simp [List.filter_cons, hp, ih]
    | true => simp [List.filter_cons, hp, ih]

theorem allFilterStage_ok {s : SessionState} {raw data : List Record}
    (hstore : s.store s.query_cls_name = some raw)
    (hfilter : filterItems s.filters_cmd raw = .ok data) :
    GenericSession.allFilterStage s = .ok (some data) := by
  unfold GenericSession.allFilterStage
  by_cases hfc : s.filters_cmd.isEmpty
  · have hnil : s.filters_cmd = [] := by
      cases hcs : s.filters_cmd with
      | nil => rfl
      | cons a t => rw [hcs] at hfc; simp [List.isEmpty] at hfc
    rw [hnil] at hfilter
    rw [filterItems_nil] at hfilter
    injection hfilter with h
    subst h
    simp [hfc, hstore]
  · simp [hfc, hstore, hfilter, Except.map]

/-- C5's counterexample: the claim allows an omitted direction
(`order_by("name")`) to mean ascending; the code unpacks
`order_cmd.split()` into exactly two names, so a one-token directive raises
`ValueError` instead of sorting ascending — also when reached through
`all()`. -/
theorem C5_omitted_direction_counterexample :
    GenericSession._order_by (some ordData) "name" = .error .valueError ∧
    GenericSession._order_by (some ordData) "name" ≠ .ok [ordRec3, ordRec1, ordRec2] ∧
    GenericSession.allRes { sessionOffset2Limit0 with order_by_cmd := some "name" } =
      .error .valueError := by
  exact ⟨by decide, by decide, by decide⟩

/-- C5 (amended): `order_by("<field> <dir>")` requires the direction token to
be present (a one-token directive raises `ValueError`); `desc` sorts
descending and any other direction token (in particular `asc`) sorts
ascending, as a stable sort keyed by the named field's value — the output is
a permutation of the input, pairwise ordered by the key, and records with
equal keys keep their original relative order — and `all()` applies it to the
filtered sequence, before `total_count` is taken and before the pagination
slice. -/
theorem C5_order_by_stable_sort (cmd col dir : String) (data : List Record)
    (keyed : List (PyVal × Record))
    (hsplit : ((cmd.data.splitOnP Char.isWhitespace).filter (fun t => !t.isEmpty)).map
      (fun l => String.mk l) = [col, dir])
    (hkeyed : keyedOf col data = .ok keyed) :
    ∃ out, GenericSession._order_by (some data) cmd = .ok out ∧
      List.Perm out data ∧
      (dir ≠ "desc" → out.Pairwise (fun r1 r2 => ∀ v1 v2,
        r1.getattrE col = .ok v1 → r2.getattrE col = .ok v2 → pyLe v1 v2 = true)) ∧
      (dir = "desc" → out.Pairwise (fun r1 r2 => ∀ v1 v2,
        r1.getattrE col = .ok v1 → r2.getattrE col = .ok v2 → pyLe v2 v1 = true)) ∧
      (∀ k : PyVal, out.filter (fun r => decide (r.attrs.lookup col = some k)) =
        data.filter (fun r => decide (r.attrs.lookup col = some k))) ∧
      (∀ (s : SessionState) (raw : List Record),
        s.store s.query_cls_name = some raw →
        filterItems s.filters_cmd raw = .ok data →
        s.order_by_cmd = some cmd → cmd ≠ "" →
        GenericSession.allRes s =
          .ok (out.length,
            if s.limit ≠ 0 then pySlice out s.offset (s.offset + s.limit) else out)) := by
  obtain ⟨hmap, hmem⟩ := keyedOf_ok hkeyed
  have hord : GenericSession._order_by (some data) cmd =
      .ok ((pyInsertionSort (keyLe (dir == "desc")) keyed).map Prod.snd) := by
    simp only [GenericSession._order_by, hsplit]
    simp [hkeyed, Bind.bind, Except.bind, pure, Except.pure]
  refine ⟨(pyInsertionSort (keyLe (dir == "desc")) keyed).map Prod.snd,
    hord, ?_, ?_, ?_, ?_, ?_⟩
  · rw [← hmap]
    exact (pyInsertionSort_perm (keyLe (dir == "desc")) keyed).map Prod.snd
  · intro hdir
    have hflag : (dir == "desc") = false := by simp [hdir]
    rw [List.pairwise_map, hflag]
    have hp := @pairwise_pyInsertionSort _ (keyLe false)
      (fun x y => by simpa [keyLe] using pyLe_total x.1 y.1)
      (fun x y z hxy hyz => by
        simp only [keyLe, if_neg] at hxy hyz ⊢
        simp only [Bool.false_eq_true, if_false] at hxy hyz ⊢
        exact pyLe_trans hxy hyz)
      keyed
    refine List.Pairwise.imp_of_mem ?_ hp
    intro a b ha hb hr v1 v2 h1 h2
    have ha2 : a ∈ keyed := ((pyInsertionSort_perm _ keyed).mem_iff).mp ha
    have hb2 : b ∈ keyed := ((pyInsertionSort_perm _ keyed).mem_iff).mp hb
    have hv1 : v1 = a.1 := by
      have := (hmem a ha2).symm.trans h1
      injection this with h
      exact h.symm
    have hv2 : v2 = b.1 := by
      have := (hmem b hb2).symm.trans h2
      injection this with h
      exact h.symm
    subst hv1; subst hv2
    simpa [keyLe] using hr
  · intro hdir
    have hflag : (dir == "desc") = true := by simp [hdir]
    rw [List.pairwise_map, hflag]
    have hp := @pairwise_pyInsertionSort _ (keyLe true)
      (fun x y => by simpa [keyLe, Or.comm] using pyLe_total x.1 y.1)
      (fun x y z hxy hyz => by
        simp only [keyLe, if_pos] at hxy hyz ⊢
        exact pyLe_trans hyz hxy)
      keyed
    refine List.Pairwise.imp_of_mem ?_ hp
    intro a b ha hb hr v1 v2 h1 h2
    have ha2 : a ∈ keyed := ((pyInsertionSort_perm _ keyed).mem_iff).mp ha
    have hb2 : b ∈ keyed := ((pyInsertionSort_perm _ keyed).mem_iff).mp hb
    have hv1 : v1 = a.1 := by
      have := (hmem a ha2).symm.trans h1
      injection this with h
      exact h.symm
    have hv2 : v2 = b.1 := by
      have := (hmem b hb2).symm.trans h2
      injection this with h
      exact h.symm
    subst hv1; subst hv2
    simpa [keyLe] using hr
  · intro k
    have hequiv : ∀ x y : PyVal × Record,
        decide (x.1 = k) = true → decide (y.1 = k) = true →
        keyLe (dir == "desc") x y = true := by
      intro x y hx hy
      have hx2 : x.1 = k := of_decide_eq_true hx
      have hy2 : y.1 = k := of_decide_eq_true hy
      cases (dir == "desc") <;> simp [keyLe, hx2, hy2, pyLe_refl]
    have hstab := @filter_pyInsertionSort _ (keyLe (dir == "desc"))
      (fun kv => decide (kv.1 = k)) hequiv keyed
    rw [filter_map_snd, ← hmap, filter_map_snd]
    have hcong1 : (pyInsertionSort (keyLe (dir == "desc")) keyed).filter
          (fun ab => decide (ab.2.attrs.lookup col = some k)) =
        (pyInsertionSort (keyLe (dir == "desc")) keyed).filter
          (fun kv => decide (kv.1 = k)) := by
      apply List.filter_congr
      intro kv hkv
      have hkv2 : kv ∈ keyed := ((pyInsertionSort_perm _ keyed).mem_iff).mp hkv
      have hl : kv.2.attrs.lookup col = some kv.1 := getattrE_ok_iff.mp (hmem kv hkv2)
      by_cases hk : kv.1 = k <;> simp [hl, hk]
    have hcong2 : keyed.filter (fun ab => decide (ab.2.attrs.lookup col = some k)) =
        keyed.filter (fun kv => decide (kv.1 = k)) := by
      apply List.filter_congr
      intro kv hkv
      have hl : kv.2.attrs.lookup col = some kv.1 := getattrE_ok_iff.mp (hmem kv hkv)
      by_cases hk : kv.1 = k <;> simp [hl, hk]
    rw [hcong1, hcong2, hstab]
  · intro s raw hstore hfilter hob hne
    have hstage1 : GenericSession.allFilterStage s = .ok (some data) :=
      allFilterStage_ok hstore hfilter
    have htruthy : pyTruthyOptStr s.order_by_cmd = true := by
      simp [hob, pyTruthyOptStr, hne]
    have hgetD : s.order_by_cmd.getD "" = cmd := by rw [hob]; rfl
    have hstage2 : GenericSession.allOrderStage s (some data) =
        .ok (some ((pyInsertionSort (keyLe (dir == "desc")) keyed).map Prod.snd)) := by
      simp [GenericSession.allOrderStage, htruthy, hgetD, hord, Except.map]
    simp only [GenericSession.allRes, Bind.bind, Except.bind, hstage1, hstage2]
    simp [pure, Except.pure]

theorem C5_order_by_stable_sort_witness :
    GenericSession.allRes sessionOrdByNameAsc = .ok (3, [ordRec3, ordRec1, ordRec2]) := by
  obtain ⟨out, hord, hperm, hasc, hdesc, hstab, hpipe⟩ :=
    C5_order_by_stable_sort "name asc" "name" "asc" ordData
      [(.str "b", ordRec1), (.str "b", ordRec2), (.str "a", ordRec3)] (by decide) (by decide)
  have hout : out = [ordRec3, ordRec1, ordRec2] := by
    have h2 := hord.symm.trans (by decide :
      GenericSession._order_by (some ordData) "name asc" = .ok [ordRec3, ordRec1, ordRec2])
    injection h2
  subst hout
  have h3 := hpipe sessionOrdByNameAsc ordData rfl (by decide) rfl (by decide)
  exact h3.trans (by decide)
